import Mathlib

/-!
Verification development for the HappyHarvest farming bot's strategy core
(`farming_strategy.py`, with the constants it imports from `config.py`).

Modelling conventions:
* Python numbers (ints and floats) are modelled as rationals `ℚ`; decimal
  literals such as `1.2`, `0.67`, `0.15` become the rationals `12/10`,
  `67/100`, `15/100`.
* A dict field read with `.get(key, default)` is modelled as a total field
  when only the default value matters, and as an `Option` when the absence
  of the key changes behaviour: the `crops` key of the crops response, the
  `marketInfo` dict and its `averagePrice` / `bestEfficiency` entries, and
  `nextExpansionCost` (whose Python default is `float('inf')`, modelled as
  `none`; every comparison against it in the source is spelled out at its
  use site).
* `datetime.now()` timestamp fields, the unused `recommendations` list and
  the human-readable `description` / `reason` format strings are omitted;
  the discriminating part of each reason string is kept as the inductive
  type `Reason`.
* A Python exception escaping a function (the unguarded division by
  `len(crops)` in `analyze_market`) is modelled by the function returning
  `none` at its outer `Option` layer.
* The mutable `self.market_history` attribute is modelled by explicit
  state passing: functions that read or write it take the current history
  and return the new one.
-/

namespace HappyHarvest

/-- Constant `LAND_CLAIM_COST = 5` from `config.py`. -/
def LAND_CLAIM_COST : ℚ := 5

/-- Constant `MIN_WATER_RESERVE = 1` from `config.py`. -/
def MIN_WATER_RESERVE : ℕ := 1

/-- Constant `MARKET_PREMIUM_THRESHOLD = 1.1` from `config.py`. -/
def MARKET_PREMIUM_THRESHOLD : ℚ := 11/10

/-- One crop dict of the crops feed; fields read with `.get(k, 0)` in the
source are total, missing keys being the same as the value `0`. -/
structure Crop where
  id : ℕ
  name : String := ""
  efficiency : ℚ
  marketPrice : ℚ
  waterCost : ℚ
deriving DecidableEq

/-- The `marketInfo` dict: both entries are read with `.get(k, 0)`, and the
claims distinguish a missing `averagePrice`, so both are `Option`s. -/
structure MarketInfo where
  averagePrice : Option ℚ
  bestEfficiency : Option ℚ
deriving DecidableEq

/-- The `/crops` response dict: `crops` key possibly absent (`'crops' not in
crops_response`), `marketInfo` read with `.get('marketInfo', {})`. -/
structure CropsResponse where
  crops : Option (List Crop)
  marketInfo : Option MarketInfo
deriving DecidableEq

/-- The four priority strings used by the strategy. -/
inductive Priority
  | CRITICAL
  | HIGH
  | MEDIUM
  | LOW
deriving DecidableEq

/-- The rank dict `priority_order = {'CRITICAL': 0, 'HIGH': 1, 'MEDIUM': 2,
'LOW': 3}` of `get_farming_plan`. -/
def priority_order : Priority → ℕ
  | .CRITICAL => 0
  | .HIGH => 1
  | .MEDIUM => 2
  | .LOW => 3

/-- The discriminating prefix of each opportunity reason string emitted by
`analyze_market` (the numeric interpolations of the f-strings are derivable
from the crop and are omitted). `standardCrop` is also the reason of the
fallback candidates built inside `recommend_crop`. -/
inductive Reason
  | highEfficiency
  | premiumPrice
  | affordable
  | standardCrop
deriving DecidableEq

/-- One entry of `analysis['opportunities']`. -/
structure Opportunity where
  crop : Crop
  reason : Reason
  priority : Priority
deriving DecidableEq

/-- The analysis dict built by `analyze_market` (timestamp and the
always-empty `recommendations` list omitted). -/
structure Analysis where
  average_price : ℚ
  best_efficiency : ℚ
  opportunities : List Opportunity
  crops : List Crop
deriving DecidableEq

/-- Embeds `sum(crop.get('efficiency', 0) for crop in crops) / len(crops)`. -/
def avg_efficiency_of (crops : List Crop) : ℚ :=
  (crops.map Crop.efficiency).sum / crops.length

/-- Embeds `crops_response.get('marketInfo', {}).get('averagePrice', 0)`. -/
def avg_price_of (crops_response : CropsResponse) : ℚ :=
  ((crops_response.marketInfo.bind MarketInfo.averagePrice).getD 0)

/-- Embeds `market_info.get('bestEfficiency', 0)`. -/
def best_efficiency_of (crops_response : CropsResponse) : ℚ :=
  ((crops_response.marketInfo.bind MarketInfo.bestEfficiency).getD 0)

/-- The classification cascade of `analyze_market` (lines 40-75): first
match wins among high efficiency (`> avg * 1.2`), premium price
(`> avg_price * MARKET_PREMIUM_THRESHOLD`), affordable (`water_cost <= 20`),
and the standard fallback. -/
def classify_crop (avg_efficiency avg_price : ℚ) (crop : Crop) : Opportunity :=
  if avg_efficiency * (12/10) < crop.efficiency then
    { crop := crop, reason := .highEfficiency, priority := .HIGH }
  else if avg_price * MARKET_PREMIUM_THRESHOLD < crop.marketPrice then
    { crop := crop, reason := .premiumPrice, priority := .MEDIUM }
  else if crop.waterCost ≤ 20 then
    { crop := crop, reason := .affordable, priority := .MEDIUM }
  else
    { crop := crop, reason := .standardCrop, priority := .LOW }

/-- The analysis dict assembled by `analyze_market` (lines 26-75) for a
non-empty crop list. -/
def analysis_of (crops_response : CropsResponse) (crops : List Crop) : Analysis :=
  { average_price := avg_price_of crops_response
    best_efficiency := best_efficiency_of crops_response
    opportunities :=
      crops.map (classify_crop (avg_efficiency_of crops) (avg_price_of crops_response))
    crops := crops }

/-- Embeds `FarmingStrategy.analyze_market`.  Takes the current
`self.market_history` and returns the new one.  The outer `Option` is the
exception layer: `none` models the `ZeroDivisionError` raised by
`sum(...) / len(crops)` when the crop list is present but empty.  The inner
`Option Analysis` is the returned dict, `none` standing for the empty dict
returned when the `crops` key is absent (in which case the history is left
untouched). -/
def analyze_market (market_history : List Analysis) (crops_response : CropsResponse) :
    Option (Option Analysis × List Analysis) :=
  match crops_response.crops with
  | none => some (none, market_history)
  | some crops =>
    if crops.length = 0 then
      none
    else
      let analysis := analysis_of crops_response crops
      let hist := market_history ++ [analysis]
      let hist := if 60 < hist.length then hist.tail else hist
      some (some analysis, hist)

/-- The reserve sizing of `recommend_crop` (lines 88-93): `land_size` is the
number of empty plots; note `MIN_WATER_RESERVE // k` is Python floor
division, which on naturals is `Nat` division. -/
def min_reserve (land_size : ℕ) : ℕ :=
  if 3 ≤ land_size then max 3 (MIN_WATER_RESERVE / 4)
  else if 2 ≤ land_size then max 5 (MIN_WATER_RESERVE / 3)
  else max 8 (MIN_WATER_RESERVE / 2)

/-- The candidate list of `recommend_crop` (lines 100-110):
`market_analysis.get('opportunities', [])`, falling back to one
MEDIUM-priority candidate per crop of `market_analysis.get('crops', [])`
when the opportunity list is empty.  `none` for `market_analysis` is the
empty dict `{}` that `analyze_market` returns on a missing `crops` key. -/
def candidate_opportunities (market_analysis : Option Analysis) : List Opportunity :=
  let opportunities := (market_analysis.map Analysis.opportunities).getD []
  if opportunities.isEmpty then
    ((market_analysis.map Analysis.crops).getD []).map
      (fun crop => { crop := crop, reason := .standardCrop, priority := .MEDIUM })
  else
    opportunities

/-- The comparator realising `affordable_crops.sort(key=lambda x:
(efficiency, marketPrice), reverse=True)`: `x` may come before `y` exactly
when `x`'s key is lexicographically at least `y`'s.  CPython's sort is
stable and `reverse=True` keeps ties in input order, which is exactly
`mergeSort` with this comparator. -/
def crop_key_ge (x y : Opportunity) : Bool :=
  decide (y.crop.efficiency < x.crop.efficiency ∨
    (y.crop.efficiency = x.crop.efficiency ∧ y.crop.marketPrice ≤ x.crop.marketPrice))

/-- Embeds `FarmingStrategy.recommend_crop` (lines 84-133). -/
def recommend_crop (available_water : ℚ) (land_size : ℕ)
    (market_analysis : Option Analysis) : Option Crop :=
  let reserve : ℚ := min_reserve land_size
  if available_water < reserve then none
  else
    let affordable_water := available_water - reserve
    let opportunities := candidate_opportunities market_analysis
    if opportunities.isEmpty then none
    else
      let affordable_crops := opportunities.filter
        (fun opp => decide (opp.crop.waterCost ≤ affordable_water))
      if affordable_crops.isEmpty then none
      else ((affordable_crops.mergeSort crop_key_ge).head?).map Opportunity.crop

/-- The `/land` response dict.  `landClaimed` is read for truthiness;
`landData` defaults to the empty grid; `nextExpansionCost` defaults to
`float('inf')`, modelled as `none`. -/
structure LandData where
  landClaimed : Bool
  landData : List (List ℕ) := []
  landTiles : ℕ := 0
  nextExpansionCost : Option ℚ := none
deriving DecidableEq

/-- The `/profile` response dict; only `score` (the water balance, read with
`.get('score', 0)`) is consulted by the strategy. -/
structure Profile where
  score : ℚ
deriving DecidableEq

/-- Inner loop of `find_empty_plots`: `for col_idx, cell in enumerate(row)`,
collecting `(row_idx, col_idx)` for each cell equal to `0`, with the column
index threaded explicitly. -/
def empty_plots_in_row (row_idx col_idx : ℕ) : List ℕ → List (ℕ × ℕ)
  | [] => []
  | cell :: rest =>
    if cell = 0 then (row_idx, col_idx) :: empty_plots_in_row row_idx (col_idx + 1) rest
    else empty_plots_in_row row_idx (col_idx + 1) rest

/-- Outer loop of `find_empty_plots`: `for row_idx, row in enumerate(grid)`. -/
def empty_plots_in_grid (row_idx : ℕ) : List (List ℕ) → List (ℕ × ℕ)
  | [] => []
  | row :: rest => empty_plots_in_row row_idx 0 row ++ empty_plots_in_grid (row_idx + 1) rest

/-- Embeds `FarmingStrategy.find_empty_plots` (lines 135-148). -/
def find_empty_plots (land_data : LandData) : List (ℕ × ℕ) :=
  if land_data.landClaimed then empty_plots_in_grid 0 land_data.landData else []

/-- The crop payload attached to a harvest action: either a crop dict
resolved through the lookup, or the placeholder dict
`{'name': 'Unknown Crop', 'id': cell}` carrying the unresolved cell code. -/
inductive CropPayload
  | full : Crop → CropPayload
  | placeholder : ℕ → CropPayload
deriving DecidableEq

/-- The `crop_lookup` dict of `find_harvestable_crops` (lines 158-162),
keyed by crop id; a Python dict built by iterated assignment keeps the
last entry for a repeated id, hence the lookup over the reversed list. -/
def crop_lookup (crops_data : CropsResponse) (cell : ℕ) : Option Crop :=
  (crops_data.crops.getD []).reverse.find? (fun crop => crop.id == cell)

/-- The payload chosen at lines 168-173: the resolved crop if the cell code
is a known id, else the unknown-crop placeholder. -/
def harvest_payload (crops_data : CropsResponse) (cell : ℕ) : CropPayload :=
  match crop_lookup crops_data cell with
  | some crop => .full crop
  | none => .placeholder cell

/-- Inner loop of `find_harvestable_crops`: cells with code `>= 2` are
mature; the column index is threaded explicitly. -/
def harvest_in_row (crops_data : CropsResponse) (row_idx col_idx : ℕ) :
    List ℕ → List (ℕ × ℕ × CropPayload)
  | [] => []
  | cell :: rest =>
    if 2 ≤ cell then
      (row_idx, col_idx, harvest_payload crops_data cell) ::
        harvest_in_row crops_data row_idx (col_idx + 1) rest
    else harvest_in_row crops_data row_idx (col_idx + 1) rest

/-- Outer loop of `find_harvestable_crops`. -/
def harvest_in_grid (crops_data : CropsResponse) (row_idx : ℕ) :
    List (List ℕ) → List (ℕ × ℕ × CropPayload)
  | [] => []
  | row :: rest =>
    harvest_in_row crops_data row_idx 0 row ++ harvest_in_grid crops_data (row_idx + 1) rest

/-- Embeds `FarmingStrategy.find_harvestable_crops` (lines 150-175). -/
def find_harvestable_crops (land_data : LandData) (crops_data : CropsResponse) :
    List (ℕ × ℕ × CropPayload) :=
  if land_data.landClaimed then harvest_in_grid crops_data 0 land_data.landData else []

/-- Embeds `FarmingStrategy.calculate_expansion_roi` (lines 216-251).  The
`current_water` parameter is unused in the source too.  `int(tiles * 0.5)`
truncates; the operand is non-negative, so it is the floor. -/
def calculate_expansion_roi (land_data : LandData) (current_water : ℚ) : ℚ :=
  match land_data.nextExpansionCost with
  | none => 0
  | some next_expansion_cost =>
    let tiles := land_data.landTiles
    let new_tiles : ℚ :=
      if tiles = 1 then 3
      else if tiles = 4 then 5
      else if tiles = 9 then 7
      else max 1 ((⌊(tiles : ℚ) * (1/2)⌋ : ℤ) : ℚ)
    let credits_per_tile_per_hour : ℚ := (15/100) / (1/2)
    let additional_credits_per_hour := new_tiles * credits_per_tile_per_hour
    let expansion_cost_in_credits := next_expansion_cost * (2/100)
    let annual_return := additional_credits_per_hour * 24
    if 0 < expansion_cost_in_credits then annual_return / expansion_cost_in_credits
    else 0

/-- Embeds `FarmingStrategy.should_expand_land` (lines 177-214).  When
`nextExpansionCost` is absent its Python value is `float('inf')`, so the
affordability guard `current_water < next_expansion_cost` at line 189 fires
and the function returns `False`: that is the `none` branch below. -/
def should_expand_land (profile : Profile) (land_data : LandData) : Bool :=
  let current_water := profile.score
  if !land_data.landClaimed then
    decide (LAND_CLAIM_COST ≤ current_water)
  else
    match land_data.nextExpansionCost with
    | none => false
    | some next_expansion_cost =>
      if current_water < next_expansion_cost then false
      else
        let expansion_roi := calculate_expansion_roi land_data current_water
        let tiles := land_data.landTiles
        if tiles = 1 then
          decide (next_expansion_cost * (67/100) ≤ current_water)
        else if tiles ≤ 4 then
          decide (next_expansion_cost + (MIN_WATER_RESERVE : ℚ) ≤ current_water ∧
            (15/100 : ℚ) < expansion_roi)
        else if tiles ≤ 9 then
          decide (next_expansion_cost + (MIN_WATER_RESERVE : ℚ) * 2 ≤ current_water ∧
            (25/100 : ℚ) < expansion_roi)
        else
          decide (next_expansion_cost + 100 ≤ current_water ∧
            (35/100 : ℚ) < expansion_roi)

/-- The `type` strings of planned actions. -/
inductive ActionType
  | harvest
  | claim_land
  | expand_land
  | plant
deriving DecidableEq

/-- One entry of `plan['actions']`.  `row`, `col` and `crop` are present
only on the action types that set them in the source; the `description`
f-strings are derivable from the other fields and are omitted. -/
structure Action where
  type : ActionType
  priority : Priority
  row : Option ℕ := none
  col : Option ℕ := none
  crop : Option CropPayload := none
deriving DecidableEq

/-- The sort key comparison realised by
`plan['actions'].sort(key=lambda x: priority_order.get(x.get('priority', 'MEDIUM'), 2))`:
every action in the plan carries one of the four known priority strings, so
the defaults never apply. -/
def action_le (x y : Action) : Bool :=
  decide (priority_order x.priority ≤ priority_order y.priority)

/-- The stable in-place sort at line 404, as a stable merge sort. -/
def sort_actions (actions : List Action) : List Action :=
  actions.mergeSort action_le

/-- Embeds `len(harvestable) * 0.15`, the credit estimate at line 312. -/
def harvestable_credits (harvestable : List (ℕ × ℕ × CropPayload)) : ℚ :=
  (harvestable.length : ℚ) * (15/100)

/-- The `should_expand` flag computed at lines 329-362 of
`get_farming_plan`: claim if unclaimed and affordable, else run
`should_expand_land` and apply the situational overrides (wait-for-harvest
on a 1-tile farm, plenty-of-water rule when there are empty plots but
nothing to harvest).  Comparisons against a missing `nextExpansionCost`
(`float('inf')`) are `False` ones, hence the `none` branches. -/
def expansion_decision (profile : Profile) (land_data : LandData)
    (harvestable : List (ℕ × ℕ × CropPayload)) (empty_plots : List (ℕ × ℕ)) : Bool :=
  let current_water := profile.score
  if !land_data.landClaimed && decide (LAND_CLAIM_COST ≤ current_water) then
    true
  else if should_expand_land profile land_data then
    if !harvestable.isEmpty && decide (land_data.landTiles = 1) then
      let water_after_harvest := current_water + harvestable_credits harvestable * 50
      match land_data.nextExpansionCost with
      | none => false
      | some next_expansion_cost => decide (next_expansion_cost ≤ water_after_harvest)
    else if harvestable.isEmpty && !empty_plots.isEmpty then
      match land_data.nextExpansionCost with
      | none => false
      | some next_expansion_cost => decide (next_expansion_cost + 20 ≤ current_water)
    else
      true
  else
    false

/-- The harvest action built at lines 318-326 for one harvestable cell. -/
def mk_harvest_action (entry : ℕ × ℕ × CropPayload) : Action :=
  { type := .harvest, priority := .CRITICAL,
    row := some entry.1, col := some entry.2.1, crop := some entry.2.2 }

/-- Step 2 of `get_farming_plan` (lines 364-376): the `claim_land` /
`expand_land` action emitted when the expansion decision is positive; an
`expand_land` is HIGH priority when there is no empty plot left. -/
def expansion_step (land_data : LandData) (empty_plots : List (ℕ × ℕ))
    (should_expand : Bool) : List Action :=
  if should_expand then
    if !land_data.landClaimed then
      [{ type := .claim_land, priority := .HIGH }]
    else
      [{ type := .expand_land,
         priority := if empty_plots.isEmpty then .HIGH else .MEDIUM }]
  else []

/-- Step 3 of `get_farming_plan` (lines 378-400): one `plant` action on the
first empty plot when the recommender returns a crop, at LOW priority when
a harvest is pending or a 1-tile farm is about to expand. -/
def plant_step (profile : Profile) (land_data : LandData)
    (market_analysis : Option Analysis) (harvestable : List (ℕ × ℕ × CropPayload))
    (empty_plots : List (ℕ × ℕ)) (should_expand : Bool) : List Action :=
  if empty_plots.isEmpty then []
  else
    match recommend_crop profile.score empty_plots.length market_analysis with
    | none => []
    | some crop =>
      match empty_plots with
      | [] => []
      | (row, col) :: _ =>
        let plant_priority :=
          if !harvestable.isEmpty then Priority.LOW
          else if should_expand && decide (land_data.landTiles = 1) then Priority.LOW
          else Priority.MEDIUM
        [{ type := .plant, priority := plant_priority,
           row := some row, col := some col, crop := some (.full crop) }]

/-- The action list of `get_farming_plan` as emitted by its three steps
(harvest, expansion, planting), before the final sort. -/
def emit_actions (profile : Profile) (land_data : LandData) (crops_data : CropsResponse)
    (market_analysis : Option Analysis) : List Action :=
  let harvestable := find_harvestable_crops land_data crops_data
  let empty_plots := find_empty_plots land_data
  let should_expand := expansion_decision profile land_data harvestable empty_plots
  harvestable.map mk_harvest_action ++
    expansion_step land_data empty_plots should_expand ++
    plant_step profile land_data market_analysis harvestable empty_plots should_expand

/-- The plan dict (timestamp omitted). -/
structure Plan where
  current_water : ℚ
  actions : List Action
  market_summary : Option Analysis
deriving DecidableEq

/-- Embeds `FarmingStrategy.get_farming_plan` (lines 298-406), with the market
history threaded explicitly through the embedded `analyze_market` call;
`none` propagates the exception raised there. -/
def get_farming_plan (market_history : List Analysis) (profile : Profile)
    (land_data : LandData) (crops_data : CropsResponse) :
    Option (Plan × List Analysis) :=
  match analyze_market market_history crops_data with
  | none => none
  | some (market_analysis, hist) =>
    some ({ current_water := profile.score,
            actions := sort_actions (emit_actions profile land_data crops_data market_analysis),
            market_summary := market_analysis }, hist)

/-! Spec-side definitions, written from the specification's words, used to
state the claims against the embedded source functions. -/

/-- Spec §8: "the number of grid cells with code ≥2". -/
def harvest_cell_count (land_data : LandData) : ℕ :=
  (land_data.landData.map (fun row => row.countP (fun cell => decide (2 ≤ cell)))).sum

/-- Spec §3: the cell code of the land grid at a row/column position. -/
def cell_at (land_data : LandData) (row col : ℕ) : Option ℕ :=
  land_data.landData[row]?.bind (fun r => r[col]?)

/-- Spec §4.1, stated from the spec's words: the bucket of a crop is decided
by the first matching rule of the fixed cascade (efficiency 20% above
average → HIGH; price above average × 1.10 → MEDIUM premium; water cost at
most 20 → MEDIUM affordable; otherwise LOW standard). -/
def spec_bucket (avgEfficiency avgPrice : ℚ) (crop : Crop) : Reason × Priority :=
  if avgEfficiency * (12/10) < crop.efficiency then (.highEfficiency, .HIGH)
  else if avgPrice * (11/10) < crop.marketPrice then (.premiumPrice, .MEDIUM)
  else if crop.waterCost ≤ 20 then (.affordable, .MEDIUM)
  else (.standardCrop, .LOW)

/-! Concrete values used by witness theorems. -/

/-- A minimal crop dict. -/
def crop0 : Crop := { id := 1, efficiency := 0, marketPrice := 0, waterCost := 0 }

/-- A crops response holding exactly one crop and no market info. -/
def resp0 : CropsResponse := { crops := some [crop0], marketInfo := none }

/-- An arbitrary pre-existing history entry. -/
def ana0 : Analysis :=
  { average_price := 0, best_efficiency := 0, opportunities := [], crops := [] }

/-- The analysis `analyze_market` produces for `resp0`: the single crop has
efficiency equal to the average, price not above the (defaulted) average,
and water cost below 20, so it lands in the affordable MEDIUM bucket. -/
def ana1 : Analysis :=
  { average_price := 0, best_efficiency := 0,
    opportunities := [{ crop := crop0, reason := .affordable, priority := .MEDIUM }],
    crops := [crop0] }

/-- A crop with a positive market price (and efficiency not above the
average) for the C10 witness. -/
def cropP : Crop := { id := 1, efficiency := 0, marketPrice := 5, waterCost := 0 }

/-- A crops response whose `marketInfo` (hence `averagePrice`) is absent. -/
def respP : CropsResponse := { crops := some [cropP], marketInfo := none }

/-- The concrete plan for the C1 witness: unclaimed land with just enough
water to claim, giving a single HIGH claim action. -/
def plan0 : Plan :=
  { current_water := 5,
    actions := [{ type := .claim_land, priority := .HIGH }],
    market_summary := some (analysis_of resp0 [crop0]) }

/-- A crop whose id 2 matches the mature-cell code 2 of the C2 witness grid. -/
def cWheat : Crop := { id := 2, efficiency := 4/10, marketPrice := 15/100, waterCost := 8 }

/-- The crops response of the C2 witness. -/
def respW : CropsResponse := { crops := some [cWheat], marketInfo := none }

/-- The claimed 2x2 grid of the C2 witness: cell (0,0) holds the unknown
code 3, cell (1,1) the known crop id 2. -/
def landW : LandData :=
  { landClaimed := true, landData := [[3, 0], [0, 2]], landTiles := 4,
    nextExpansionCost := some 30 }

/-- The harvest action the plan must emit for the unresolved cell (0,0). -/
def actW1 : Action :=
  { type := .harvest, priority := .CRITICAL, row := some 0, col := some 0,
    crop := some (.placeholder 3) }

/-- The harvest action the plan must emit for the resolved cell (1,1). -/
def actW2 : Action :=
  { type := .harvest, priority := .CRITICAL, row := some 1, col := some 1,
    crop := some (.full cWheat) }

/-- The plan `get_farming_plan` produces on the C2 witness input (no water,
so no expansion and no planting). -/
def planW : Plan :=
  { current_water := 0, actions := [actW1, actW2],
    market_summary := some (analysis_of respW [cWheat]) }

/-! Helper lemmas about the action sort. -/

theorem action_le_trans : ∀ (a b c : Action), action_le a b → action_le b c → action_le a c := by
  intro a b c hab hbc
  simp only [action_le, decide_eq_true_eq] at *
  omega

theorem action_le_total : ∀ (a b : Action), action_le a b || action_le b a := by
  intro a b
  simp only [action_le, Bool.or_eq_true, decide_eq_true_eq]
  omega

theorem sort_actions_sorted (l : List Action) :
    (sort_actions l).Pairwise
      (fun x y => priority_order x.priority ≤ priority_order y.priority) := by
  have h := List.sorted_mergeSort action_le_trans action_le_total l
  exact h.imp (fun hab => by simpa [action_le] using hab)

theorem filter_priority_sort_actions (l : List Action) (p : Priority) :
    (sort_actions l).filter (fun a => decide (a.priority = p)) =
      l.filter (fun a => decide (a.priority = p)) := by
  have hmem : ∀ x ∈ l.filter (fun a => decide (a.priority = p)), x.priority = p := by
    intro x hx
    simpa using (List.mem_filter.mp hx).2
  have hpw : (l.filter (fun a => decide (a.priority = p))).Pairwise
      (fun x y => action_le x y = true) := by
    apply List.pairwise_of_forall_mem_list
    intro x hx y hy
    simp [action_le, hmem x hx, hmem y hy]
  have hsub : List.Sublist (l.filter (fun a => decide (a.priority = p)))
      (l.mergeSort action_le) :=
    List.sublist_mergeSort action_le_trans action_le_total hpw (List.filter_sublist l)
  have hsub2 := hsub.filter (fun a => decide (a.priority = p))
  have hself : (l.filter (fun a => decide (a.priority = p))).filter
      (fun a => decide (a.priority = p)) = l.filter (fun a => decide (a.priority = p)) := by
    apply List.filter_eq_self.mpr
    intro a ha
    exact (List.mem_filter.mp ha).2
  rw [hself] at hsub2
  have hlen : ((l.mergeSort action_le).filter (fun a => decide (a.priority = p))).length =
      (l.filter (fun a => decide (a.priority = p))).length :=
    ((List.mergeSort_perm l action_le).filter _).length_eq
  exact (hsub2.eq_of_length hlen.symm).symm

/-- C4: the plan assembler is deterministic: the plan produced by
`get_farming_plan` (timestamps are outside the model) does not depend on the
accumulated `market_history` state, so two calls on identical snapshots
return identical ordered plans. -/
theorem plan_independent_of_market_history :
    ∀ (hist1 hist2 : List Analysis) (profile : Profile) (land_data : LandData)
      (crops_data : CropsResponse),
      (get_farming_plan hist1 profile land_data crops_data).map Prod.fst =
        (get_farming_plan hist2 profile land_data crops_data).map Prod.fst := by
  intro hist1 hist2 profile land_data crops_data
  cases hc : crops_data.crops with
  | none => simp [get_farming_plan, analyze_market, hc]
  | some cs =>
    by_cases hl : cs.length = 0
    · simp [get_farming_plan, analyze_market, hc, hl]
    · simp [get_farming_plan, analyze_market, hc, hl]

/-- C5: on a crops response whose crop list is present but empty,
`analyze_market` does not return an empty analysis: the mean computation
`sum(...) / len(crops)` divides by zero and the function raises (modelled
by `none`), contradicting the spec's guarded-mean requirement. -/
theorem analyze_market_empty_crops_raises :
    analyze_market [] { crops := some [], marketInfo := none } = none := rfl

/-- C6 counterexample: for unclaimed land `should_expand_land` ignores
`nextExpansionCost` entirely, so with water 5 (enough for `LAND_CLAIM_COST`)
and an expansion cost of 100 it returns `true` although water < cost,
refuting the claim as stated over all snapshots. -/
theorem should_expand_unclaimed_counterexample :
    should_expand_land { score := 5 }
      { landClaimed := false, nextExpansionCost := some 100 } = true ∧
    (5 : ℚ) < 100 := by
  constructor
  · simp [should_expand_land, LAND_CLAIM_COST]
  · norm_num

/-- C6 amended: for every profile and *claimed* land snapshot, whenever the
water balance is strictly below `nextExpansionCost` (a missing cost being
infinite), `should_expand_land` returns `false`. -/
theorem should_expand_false_of_unaffordable_claimed :
    ∀ (profile : Profile) (land_data : LandData),
      land_data.landClaimed = true →
      (∀ cost, land_data.nextExpansionCost = some cost → profile.score < cost) →
      should_expand_land profile land_data = false := by
  intro profile land_data hclaim hcost
  unfold should_expand_land
  rw [hclaim]
  cases hc : land_data.nextExpansionCost with
  | none => simp
  | some cost => simp [hcost cost hc]

/-- Witness for the amended C6 at a concrete input: claimed land, cost 10,
water 3. -/
theorem should_expand_false_of_unaffordable_claimed_witness :
    ((3 : ℚ) < 10) ∧
    should_expand_land { score := 3 }
      { landClaimed := true, landData := [[1]], landTiles := 1,
        nextExpansionCost := some 10 } = false := by
  refine ⟨by norm_num, ?_⟩
  apply should_expand_false_of_unaffordable_claimed _ _ rfl
  intro cost hc
  injection hc with h
  rw [← h]
  norm_num

/-- C7: the aggressive `0.67 × cost` rule for the first expansion is
unreachable: with a claimed 1-tile farm, cost 30 and water 21 (which is
at least `30 × 0.67 = 20.1` but below 30), the affordability guard at line
189 fires first and `should_expand_land` returns `false`, contradicting the
source's own comment ("expand when we have 2/3 of the cost") and the
config comment for the 0.67 ratio ("20 water for 30 cost"). -/
theorem should_expand_tile1_ratio_unreachable :
    should_expand_land { score := 21 }
      { landClaimed := true, landData := [[1]], landTiles := 1,
        nextExpansionCost := some 30 } = false ∧
    (30 : ℚ) * (67/100) ≤ 21 ∧ (21 : ℚ) < 30 := by
  refine ⟨?_, by norm_num, by norm_num⟩
  simp [should_expand_land]
  norm_num

/-- C8: `analyze_market` keeps the market history bounded by 60 entries,
and once the bound is reached a successful analysis evicts the oldest
entry: the new history is the tail of the old one plus the new analysis
(a FIFO of capacity 60). -/
theorem market_history_bounded_fifo :
    ∀ (hist : List Analysis) (resp : CropsResponse) (out : Option Analysis)
      (hist' : List Analysis),
      hist.length ≤ 60 →
      analyze_market hist resp = some (out, hist') →
      hist'.length ≤ 60 ∧
      ∀ a, out = some a → hist.length = 60 → hist' = hist.tail ++ [a] := by
  intro hist resp out hist' hlen heq
  obtain ⟨rcrops, rmi⟩ := resp
  cases rcrops with
  | none =>
    simp only [analyze_market, Option.some.injEq, Prod.mk.injEq] at heq
    obtain ⟨hout, hhist⟩ := heq
    subst hhist
    refine ⟨hlen, ?_⟩
    intro a ha _
    rw [← hout] at ha
    cases ha
  | some cs =>
    by_cases hl : cs.length = 0
    · simp [analyze_market, hl] at heq
    · simp only [analyze_market, hl, if_false, if_neg, Option.some.injEq,
        Prod.mk.injEq] at heq
      obtain ⟨hout, hhist⟩ := heq
      by_cases h60 : hist.length = 60
      · rw [if_pos (by simp [h60])] at hhist
        obtain ⟨h0, t, rfl⟩ : ∃ h0 t, hist = h0 :: t := by
          cases hist with
          | nil => simp at h60
          | cons h0 t => exact ⟨h0, t, rfl⟩
        simp only [List.cons_append, List.tail_cons] at hhist
        subst hhist
        constructor
        · simp only [List.length_append, List.length_singleton]
          have : t.length = 59 := by simpa using h60
          omega
        · intro a ha _
          rw [← hout] at ha
          injection ha with ha
          subst ha
          rfl
      · rw [if_neg (by simp; omega)] at hhist
        subst hhist
        constructor
        · simp only [List.length_append, List.length_singleton]
          omega
        · intro a ha h60'
          exact absurd h60' h60

/-- Witness for C8 at a concrete input: a history of exactly 60 entries and
a one-crop response; the new history drops the oldest entry. -/
theorem market_history_bounded_fifo_witness :
    (List.replicate 60 ana0).length ≤ 60 ∧
    analyze_market (List.replicate 60 ana0) resp0 =
      some (some ana1, List.replicate 59 ana0 ++ [ana1]) ∧
    (List.replicate 59 ana0 ++ [ana1]).length ≤ 60 ∧
    List.replicate 59 ana0 ++ [ana1] = (List.replicate 60 ana0).tail ++ [ana1] := by
  have heq : analyze_market (List.replicate 60 ana0) resp0 =
      some (some ana1, List.replicate 59 ana0 ++ [ana1]) := by
    simp only [analyze_market, analysis_of, resp0, avg_efficiency_of, avg_price_of,
      best_efficiency_of, MARKET_PREMIUM_THRESHOLD, ana1]
    norm_num [classify_crop, crop0]
  have h := market_history_bounded_fifo (List.replicate 60 ana0) resp0 (some ana1)
    (List.replicate 59 ana0 ++ [ana1]) (by simp) heq
  exact ⟨by simp, heq, h.1, h.2 ana1 rfl (by simp)⟩

/-! Helper lemmas about the classifier and `analyze_market`. -/

theorem classify_crop_crop (a p : ℚ) (c : Crop) : (classify_crop a p c).crop = c := by
  unfold classify_crop
  split
  · rfl
  · split
    · rfl
    · split
      · rfl
      · rfl

theorem classify_crop_matches_spec_bucket (a p : ℚ) (c : Crop) :
    ((classify_crop a p c).reason, (classify_crop a p c).priority) = spec_bucket a p c := by
  unfold classify_crop spec_bucket MARKET_PREMIUM_THRESHOLD
  split
  · rfl
  · split
    · rfl
    · split
      · rfl
      · rfl

theorem analyze_market_nonempty (hist : List Analysis) (resp : CropsResponse)
    (crops : List Crop) (hc : resp.crops = some crops) (hl : ¬ crops.length = 0) :
    analyze_market hist resp =
      some (some (analysis_of resp crops),
        if 60 < (hist ++ [analysis_of resp crops]).length then
          (hist ++ [analysis_of resp crops]).tail
        else hist ++ [analysis_of resp crops]) := by
  obtain ⟨rc, rmi⟩ := resp
  simp only at hc
  subst hc
  simp only [analyze_market]
  rw [if_neg hl]

/-- C3: for a non-empty crop list the analysis exists, its opportunity list
carries every input crop exactly once and in order, and each crop's reason
and priority are those of the first matching rule of the spec's fixed
cascade. -/
theorem market_buckets_first_match_exhaustive :
    ∀ (hist : List Analysis) (resp : CropsResponse) (crops : List Crop),
      resp.crops = some crops →
      crops ≠ [] →
      ∃ ana hist',
        analyze_market hist resp = some (some ana, hist') ∧
        ana.opportunities.map Opportunity.crop = crops ∧
        ∀ opp ∈ ana.opportunities,
          (opp.reason, opp.priority) =
            spec_bucket (avg_efficiency_of crops) (avg_price_of resp) opp.crop := by
  intro hist resp crops hc hne
  have hl : ¬ crops.length = 0 := by simpa using hne
  refine ⟨analysis_of resp crops, _, analyze_market_nonempty hist resp crops hc hl, ?_, ?_⟩
  · rw [analysis_of, List.map_map]
    conv_rhs => rw [← List.map_id crops]
    exact List.map_congr_left (fun c _ => classify_crop_crop _ _ c)
  · intro opp hopp
    rw [analysis_of] at hopp
    simp only [List.mem_map] at hopp
    obtain ⟨c, hcmem, rfl⟩ := hopp
    rw [classify_crop_matches_spec_bucket, classify_crop_crop]

/-- Witness for C3 at the one-crop response `resp0`. -/
theorem market_buckets_first_match_exhaustive_witness :
    resp0.crops = some [crop0] ∧ ([crop0] ≠ ([] : List Crop)) ∧
    ∃ ana hist',
      analyze_market [] resp0 = some (some ana, hist') ∧
      ana.opportunities.map Opportunity.crop = [crop0] ∧
      ∀ opp ∈ ana.opportunities,
        (opp.reason, opp.priority) =
          spec_bucket (avg_efficiency_of [crop0]) (avg_price_of resp0) opp.crop :=
  ⟨rfl, by simp,
    market_buckets_first_match_exhaustive [] resp0 [crop0] rfl (by simp)⟩

/-- C9: the recommender honours its water budget: a returned crop fits in
`available_water - reserve`, water below the reserve yields no
recommendation, and so does an unaffordable candidate pool. -/
theorem recommend_crop_respects_budget :
    ∀ (available_water : ℚ) (land_size : ℕ) (market_analysis : Option Analysis),
      (∀ crop, recommend_crop available_water land_size market_analysis = some crop →
        ((min_reserve land_size : ℕ) : ℚ) ≤ available_water ∧
        crop.waterCost ≤ available_water - ((min_reserve land_size : ℕ) : ℚ)) ∧
      (available_water < ((min_reserve land_size : ℕ) : ℚ) →
        recommend_crop available_water land_size market_analysis = none) ∧
      ((∀ opp ∈ candidate_opportunities market_analysis,
          available_water - ((min_reserve land_size : ℕ) : ℚ) < opp.crop.waterCost) →
        recommend_crop available_water land_size market_analysis = none) := by
  intro aw ls ma
  by_cases hr : aw < ((min_reserve ls : ℕ) : ℚ)
  · refine ⟨?_, fun _ => by simp [recommend_crop, hr], fun _ => by simp [recommend_crop, hr]⟩
    intro crop hcrop
    simp [recommend_crop, hr] at hcrop
  · have hr' : ((min_reserve ls : ℕ) : ℚ) ≤ aw := not_lt.mp hr
    refine ⟨?_, fun h => absurd h hr, ?_⟩
    · intro crop hcrop
      refine ⟨hr', ?_⟩
      simp only [recommend_crop, if_neg hr] at hcrop
      by_cases ho : (candidate_opportunities ma).isEmpty
      · simp [ho] at hcrop
      · simp only [ho, Bool.false_eq_true, if_false] at hcrop
        by_cases ha : ((candidate_opportunities ma).filter
            (fun opp => decide (opp.crop.waterCost ≤ aw - ((min_reserve ls : ℕ) : ℚ)))).isEmpty
        · simp [ha] at hcrop
        · simp only [ha, Bool.false_eq_true, if_false] at hcrop
          rw [Option.map_eq_some'] at hcrop
          obtain ⟨opp, hopp, rfl⟩ := hcrop
          have hmem : opp ∈ ((candidate_opportunities ma).filter
              (fun opp => decide (opp.crop.waterCost ≤ aw - ((min_reserve ls : ℕ) : ℚ)))).mergeSort
                crop_key_ge := by
            exact List.mem_of_mem_head? (by rw [hopp]; rfl)
          rw [List.mem_mergeSort, List.mem_filter] at hmem
          simpa using hmem.2
    · intro hall
      simp only [recommend_crop, if_neg hr]
      by_cases ho : (candidate_opportunities ma).isEmpty
      · simp [ho]
      · simp only [ho, Bool.false_eq_true, if_false]
        have hnil : (candidate_opportunities ma).filter
            (fun opp => decide (opp.crop.waterCost ≤ aw - ((min_reserve ls : ℕ) : ℚ))) = [] := by
          rw [List.filter_eq_nil_iff]
          intro opp hopp
          simpa using not_le.mpr (hall opp hopp)
        rw [hnil]
        simp

/-- Witness for C9: with no water and one empty plot the reserve (8) is not
met, so no crop is recommended. -/
theorem recommend_crop_respects_budget_witness :
    ((0 : ℚ) < ((min_reserve 0 : ℕ) : ℚ)) ∧
    recommend_crop 0 0 none = none := by
  refine ⟨by norm_num [min_reserve, MIN_WATER_RESERVE], ?_⟩
  exact (recommend_crop_respects_budget 0 0 none).2.1
    (by norm_num [min_reserve, MIN_WATER_RESERVE])

/-- C10: when the aggregate `averagePrice` is absent it defaults to 0, so
every positively-priced crop that misses the HIGH efficiency bucket is
classified MEDIUM with the premium-price reason (the affordable and
standard buckets are unreachable for it). -/
theorem missing_average_price_premium_bucket :
    ∀ (hist : List Analysis) (resp : CropsResponse) (crops : List Crop)
      (ana : Analysis) (hist' : List Analysis),
      resp.crops = some crops →
      resp.marketInfo.bind MarketInfo.averagePrice = none →
      analyze_market hist resp = some (some ana, hist') →
      ana.average_price = 0 ∧
      ∀ opp ∈ ana.opportunities,
        0 < opp.crop.marketPrice →
        ¬(avg_efficiency_of crops * (12/10) < opp.crop.efficiency) →
        opp.priority = .MEDIUM ∧ opp.reason = .premiumPrice := by
  intro hist resp crops ana hist' hc hmi heq
  have hprice : avg_price_of resp = 0 := by simp [avg_price_of, hmi]
  by_cases hl : crops.length = 0
  · obtain ⟨rc, rmi⟩ := resp
    simp only at hc
    subst hc
    simp [analyze_market, hl] at heq
  · rw [analyze_market_nonempty hist resp crops hc hl] at heq
    simp only [Option.some.injEq, Prod.mk.injEq] at heq
    obtain ⟨hana, -⟩ := heq
    subst hana
    constructor
    · simp [analysis_of, hprice]
    · intro opp hopp hpos hneff
      simp only [analysis_of, List.mem_map] at hopp
      obtain ⟨c, hcmem, rfl⟩ := hopp
      rw [classify_crop_crop] at hpos hneff
      have hlt : avg_price_of resp * MARKET_PREMIUM_THRESHOLD < c.marketPrice := by
        rw [hprice]
        simpa using hpos
      unfold classify_crop
      rw [if_neg hneff, if_pos hlt]
      exact ⟨rfl, rfl⟩

/-- Witness for C10 at the response `respP` with no `marketInfo`. -/
theorem missing_average_price_premium_bucket_witness :
    respP.crops = some [cropP] ∧
    respP.marketInfo.bind MarketInfo.averagePrice = none ∧
    analyze_market [] respP =
      some (some (analysis_of respP [cropP]), [analysis_of respP [cropP]]) ∧
    (analysis_of respP [cropP]).average_price = 0 ∧
    (0 : ℚ) < cropP.marketPrice ∧
    ∀ opp ∈ (analysis_of respP [cropP]).opportunities,
      0 < opp.crop.marketPrice →
      ¬(avg_efficiency_of [cropP] * (12/10) < opp.crop.efficiency) →
      opp.priority = .MEDIUM ∧ opp.reason = .premiumPrice := by
  have heq : analyze_market [] respP =
      some (some (analysis_of respP [cropP]), [analysis_of respP [cropP]]) := by
    rw [analyze_market_nonempty [] respP [cropP] rfl (by simp)]
    simp
  have h := missing_average_price_premium_bucket [] respP [cropP]
    (analysis_of respP [cropP]) [analysis_of respP [cropP]] rfl rfl heq
  exact ⟨rfl, rfl, heq, h.1, by norm_num [cropP], h.2⟩

/-- C1: the plan's action list is sorted non-decreasingly by priority rank,
and the sort is stable: for each priority, the actions of that priority
appear exactly as emitted by the harvest, expansion and planting steps. -/
theorem plan_actions_sorted_and_stable :
    ∀ (hist : List Analysis) (profile : Profile) (land_data : LandData)
      (crops_data : CropsResponse) (plan : Plan) (hist' : List Analysis),
      get_farming_plan hist profile land_data crops_data = some (plan, hist') →
      plan.actions.Pairwise
        (fun x y => priority_order x.priority ≤ priority_order y.priority) ∧
      ∀ p : Priority,
        plan.actions.filter (fun a => decide (a.priority = p)) =
          (emit_actions profile land_data crops_data plan.market_summary).filter
            (fun a => decide (a.priority = p)) := by
  intro hist profile land_data crops_data plan hist' heq
  rw [get_farming_plan] at heq
  cases ham : analyze_market hist crops_data with
  | none => rw [ham] at heq; cases heq
  | some pr =>
    obtain ⟨ma, h⟩ := pr
    rw [ham] at heq
    simp only [Option.some.injEq, Prod.mk.injEq] at heq
    obtain ⟨hplan, -⟩ := heq
    subst hplan
    exact ⟨sort_actions_sorted _, fun p => filter_priority_sort_actions _ p⟩

/-- Witness for C1 at a concrete input. -/
theorem plan_actions_sorted_and_stable_witness :
    get_farming_plan [] { score := 5 } { landClaimed := false } resp0 =
      some (plan0, [analysis_of resp0 [crop0]]) ∧
    plan0.actions.Pairwise
      (fun x y => priority_order x.priority ≤ priority_order y.priority) ∧
    ∀ p : Priority,
      plan0.actions.filter (fun a => decide (a.priority = p)) =
        (emit_actions { score := 5 } { landClaimed := false } resp0
            plan0.market_summary).filter
          (fun a => decide (a.priority = p)) := by
  have heq : get_farming_plan [] { score := 5 } { landClaimed := false } resp0 =
      some (plan0, [analysis_of resp0 [crop0]]) := by
    rw [get_farming_plan, analyze_market_nonempty [] resp0 [crop0] rfl (by simp)]
    simp only [List.nil_append, List.length_singleton]
    rw [if_neg (by norm_num)]
    simp only [plan0, Option.some.injEq, Prod.mk.injEq, Plan.mk.injEq]
    refine ⟨⟨trivial, ?_, trivial⟩, trivial⟩
    simp only [emit_actions, find_harvestable_crops, find_empty_plots,
      Bool.false_eq_true, if_false, expansion_step, expansion_decision,
      plant_step, sort_actions]
    norm_num [should_expand_land, LAND_CLAIM_COST, harvest_in_grid,
      empty_plots_in_grid, mk_harvest_action]
  have h := plan_actions_sorted_and_stable [] { score := 5 } { landClaimed := false }
    resp0 plan0 [analysis_of resp0 [crop0]] heq
  exact ⟨heq, h.1, h.2⟩

/-! Helper lemmas about the grid scan of `find_harvestable_crops` and the
three emission steps of `get_farming_plan`. -/

theorem harvest_in_row_length (cd : CropsResponse) (ri : ℕ) :
    ∀ (ci : ℕ) (row : List ℕ),
      (harvest_in_row cd ri ci row).length = row.countP (fun cell => decide (2 ≤ cell)) := by
  intro ci row
  induction row generalizing ci with
  | nil => rfl
  | cons cell rest ih =>
    simp only [harvest_in_row, List.countP_cons]
    by_cases h2 : 2 ≤ cell
    · rw [if_pos h2]
      simp [h2, ih]
    · rw [if_neg h2]
      simp [h2, ih]

theorem harvest_in_grid_length (cd : CropsResponse) :
    ∀ (ri : ℕ) (rows : List (List ℕ)),
      (harvest_in_grid cd ri rows).length =
        (rows.map (fun row => row.countP (fun cell => decide (2 ≤ cell)))).sum := by
  intro ri rows
  induction rows generalizing ri with
  | nil => rfl
  | cons row rest ih =>
    simp [harvest_in_grid, List.length_append, harvest_in_row_length, ih]

theorem harvest_in_row_mem (cd : CropsResponse) (ri : ℕ) :
    ∀ (ci : ℕ) (row : List ℕ) (e : ℕ × ℕ × CropPayload),
      e ∈ harvest_in_row cd ri ci row →
      e.1 = ri ∧ ci ≤ e.2.1 ∧
      ∃ cell, row[e.2.1 - ci]? = some cell ∧ 2 ≤ cell ∧
        e.2.2 = harvest_payload cd cell := by
  intro ci row
  induction row generalizing ci with
  | nil => intro e he; simp [harvest_in_row] at he
  | cons cell rest ih =>
    intro e he
    simp only [harvest_in_row] at he
    by_cases h2 : 2 ≤ cell
    · rw [if_pos h2] at he
      rcases List.mem_cons.mp he with rfl | htail
      · exact ⟨rfl, le_refl _, cell, by simp, h2, rfl⟩
      · obtain ⟨h1, hci, cell', hlook, hc2, hpay⟩ := ih (ci + 1) e htail
        refine ⟨h1, by omega, cell', ?_, hc2, hpay⟩
        have hidx : e.2.1 - ci = (e.2.1 - (ci + 1)) + 1 := by omega
        rw [hidx, List.getElem?_cons_succ]
        exact hlook
    · rw [if_neg h2] at he
      obtain ⟨h1, hci, cell', hlook, hc2, hpay⟩ := ih (ci + 1) e he
      refine ⟨h1, by omega, cell', ?_, hc2, hpay⟩
      have hidx : e.2.1 - ci = (e.2.1 - (ci + 1)) + 1 := by omega
      rw [hidx, List.getElem?_cons_succ]
      exact hlook

theorem harvest_in_grid_mem (cd : CropsResponse) :
    ∀ (ri : ℕ) (rows : List (List ℕ)) (e : ℕ × ℕ × CropPayload),
      e ∈ harvest_in_grid cd ri rows →
      ri ≤ e.1 ∧
      ∃ row cell, rows[e.1 - ri]? = some row ∧ row[e.2.1]? = some cell ∧
        2 ≤ cell ∧ e.2.2 = harvest_payload cd cell := by
  intro ri rows
  induction rows generalizing ri with
  | nil => intro e he; simp [harvest_in_grid] at he
  | cons row rest ih =>
    intro e he
    simp only [harvest_in_grid] at he
    rcases List.mem_append.mp he with hrow | hgrid
    · obtain ⟨h1, -, cell, hlook, hc2, hpay⟩ := harvest_in_row_mem cd ri 0 row e hrow
      subst h1
      refine ⟨le_refl _, row, cell, by simp, ?_, hc2, hpay⟩
      simpa using hlook
    · obtain ⟨h1, row', cell, hrow', hlook, hc2, hpay⟩ := ih (ri + 1) e hgrid
      refine ⟨by omega, row', cell, ?_, hlook, hc2, hpay⟩
      have hidx : e.1 - ri = (e.1 - (ri + 1)) + 1 := by omega
      rw [hidx, List.getElem?_cons_succ]
      exact hrow'

theorem harvest_in_row_pairwise (cd : CropsResponse) (ri : ℕ) :
    ∀ (ci : ℕ) (row : List ℕ),
      (harvest_in_row cd ri ci row).Pairwise (fun a b => a.2.1 < b.2.1) := by
  intro ci row
  induction row generalizing ci with
  | nil => exact List.Pairwise.nil
  | cons cell rest ih =>
    simp only [harvest_in_row]
    by_cases h2 : 2 ≤ cell
    · rw [if_pos h2]
      refine List.Pairwise.cons ?_ (ih (ci + 1))
      intro b hb
      have := (harvest_in_row_mem cd ri (ci + 1) rest b hb).2.1
      simpa using by omega
    · rw [if_neg h2]
      exact ih (ci + 1)

theorem harvest_in_grid_pairwise (cd : CropsResponse) :
    ∀ (ri : ℕ) (rows : List (List ℕ)),
      (harvest_in_grid cd ri rows).Pairwise
        (fun a b => a.1 < b.1 ∨ (a.1 = b.1 ∧ a.2.1 < b.2.1)) := by
  intro ri rows
  induction rows generalizing ri with
  | nil => exact List.Pairwise.nil
  | cons row rest ih =>
    simp only [harvest_in_grid]
    rw [List.pairwise_append]
    refine ⟨?_, ih (ri + 1), ?_⟩
    · refine (harvest_in_row_pairwise cd ri 0 row).imp_of_mem ?_
      intro a b ha hb hcol
      have h1 : a.1 = ri := (harvest_in_row_mem cd ri 0 row a ha).1
      have h2 : b.1 = ri := (harvest_in_row_mem cd ri 0 row b hb).1
      exact Or.inr ⟨h1.trans h2.symm, hcol⟩
    · intro a ha b hb
      have h1 : a.1 = ri := (harvest_in_row_mem cd ri 0 row a ha).1
      have h2 : ri + 1 ≤ b.1 := (harvest_in_grid_mem cd (ri + 1) rest b hb).1
      exact Or.inl (by omega)

theorem expansion_step_mem (land_data : LandData) (empty_plots : List (ℕ × ℕ))
    (se : Bool) :
    ∀ a ∈ expansion_step land_data empty_plots se,
      a.priority ≠ Priority.CRITICAL ∧ a.type ≠ ActionType.harvest := by
  intro a ha
  unfold expansion_step at ha
  cases se with
  | false => simp at ha
  | true =>
    simp only [if_true] at ha
    by_cases hc : !land_data.landClaimed
    · rw [if_pos hc] at ha
      rcases List.mem_singleton.mp ha with rfl
      exact ⟨by simp, by simp⟩
    · rw [if_neg hc] at ha
      rcases List.mem_singleton.mp ha with rfl
      refine ⟨?_, by simp⟩
      by_cases he : empty_plots.isEmpty
      · simp [he]
      · simp [he]

theorem plant_step_mem (profile : Profile) (land_data : LandData)
    (ma : Option Analysis) (harvestable : List (ℕ × ℕ × CropPayload))
    (empty_plots : List (ℕ × ℕ)) (se : Bool) :
    ∀ a ∈ plant_step profile land_data ma harvestable empty_plots se,
      a.priority ≠ Priority.CRITICAL ∧ a.type ≠ ActionType.harvest := by
  intro a ha
  unfold plant_step at ha
  by_cases he : empty_plots.isEmpty
  · simp [he] at ha
  · rw [if_neg (by simpa using he)] at ha
    rcases hrec : recommend_crop profile.score empty_plots.length ma with _ | crop
    · rw [hrec] at ha; simp at ha
    · rw [hrec] at ha
      cases empty_plots with
      | nil => simp at ha
      | cons rc rest =>
        obtain ⟨row, col⟩ := rc
        simp only at ha
        rcases List.mem_singleton.mp ha with rfl
        refine ⟨?_, by simp⟩
        by_cases h1 : !harvestable.isEmpty
        · simp [h1]
        · by_cases h2 : se && decide (land_data.landTiles = 1)
          · simp [h1, h2]
          · simp [h1, h2]

theorem mk_harvest_action_mem (harvestable : List (ℕ × ℕ × CropPayload)) :
    ∀ a ∈ harvestable.map mk_harvest_action,
      a.priority = Priority.CRITICAL ∧ a.type = ActionType.harvest := by
  intro a ha
  obtain ⟨e, -, rfl⟩ := List.mem_map.mp ha
  exact ⟨rfl, rfl⟩

theorem emit_actions_filter_critical (profile : Profile) (land_data : LandData)
    (crops_data : CropsResponse) (ma : Option Analysis) :
    (emit_actions profile land_data crops_data ma).filter
      (fun a => decide (a.priority = Priority.CRITICAL)) =
      (find_harvestable_crops land_data crops_data).map mk_harvest_action := by
  unfold emit_actions
  simp only [List.filter_append]
  rw [List.filter_eq_self.mpr, List.filter_eq_nil_iff.mpr, List.filter_eq_nil_iff.mpr]
  · simp
  · intro a ha
    simpa using (plant_step_mem _ _ _ _ _ _ a ha).1
  · intro a ha
    simpa using (expansion_step_mem _ _ _ a ha).1
  · intro a ha
    simpa using (mk_harvest_action_mem _ a ha).1

theorem emit_actions_harvest_iff (profile : Profile) (land_data : LandData)
    (crops_data : CropsResponse) (ma : Option Analysis) :
    ∀ a ∈ emit_actions profile land_data crops_data ma,
      (a.type = ActionType.harvest ↔ a.priority = Priority.CRITICAL) := by
  intro a ha
  unfold emit_actions at ha
  rcases List.mem_append.mp ha with h12 | hp
  · rcases List.mem_append.mp h12 with hh | he
    · have := mk_harvest_action_mem _ a hh
      simp [this.1, this.2]
    · have := expansion_step_mem _ _ _ a he
      simp [this.1, this.2]
  · have := plant_step_mem _ _ _ _ _ _ a hp
    simp [this.1, this.2]

/-- C2: on a produced plan, the harvest actions are exactly one CRITICAL
action per grid cell with code at least 2 (none at all on unclaimed land),
each carrying the resolved crop or the unknown-crop placeholder for an
unresolved code, at pairwise distinct grid positions. -/
theorem plan_harvest_actions_exact :
    ∀ (hist : List Analysis) (profile : Profile) (land_data : LandData)
      (crops_data : CropsResponse) (plan : Plan) (hist' : List Analysis),
      get_farming_plan hist profile land_data crops_data = some (plan, hist') →
      ((plan.actions.filter (fun a => decide (a.type = ActionType.harvest))).length =
        if land_data.landClaimed then harvest_cell_count land_data else 0) ∧
      (∀ a ∈ plan.actions, a.type = ActionType.harvest →
        a.priority = Priority.CRITICAL ∧
        ∃ r c cell, a.row = some r ∧ a.col = some c ∧
          cell_at land_data r c = some cell ∧ 2 ≤ cell ∧
          a.crop = some (harvest_payload crops_data cell)) ∧
      ((plan.actions.filter (fun a => decide (a.type = ActionType.harvest))).map
        (fun a => (a.row, a.col))).Nodup ∧
      (land_data.landClaimed = false →
        plan.actions.filter (fun a => decide (a.type = ActionType.harvest)) = []) := by
  intro hist profile land_data crops_data plan hist' heq
  rw [get_farming_plan] at heq
  cases ham : analyze_market hist crops_data with
  | none => rw [ham] at heq; cases heq
  | some pr =>
    obtain ⟨ma, h⟩ := pr
    rw [ham] at heq
    simp only [Option.some.injEq, Prod.mk.injEq] at heq
    obtain ⟨hplan, -⟩ := heq
    have hact : plan.actions =
        sort_actions (emit_actions profile land_data crops_data ma) := by
      rw [← hplan]
    have hmemE : ∀ a ∈ plan.actions, a ∈ emit_actions profile land_data crops_data ma := by
      intro a ha
      rw [hact] at ha
      exact List.mem_mergeSort.mp ha
    have hfilter : plan.actions.filter (fun a => decide (a.type = ActionType.harvest)) =
        (find_harvestable_crops land_data crops_data).map mk_harvest_action := by
      have h1 : plan.actions.filter (fun a => decide (a.type = ActionType.harvest)) =
          plan.actions.filter (fun a => decide (a.priority = Priority.CRITICAL)) := by
        apply List.filter_congr
        intro a ha
        exact decide_eq_decide.mpr
          (emit_actions_harvest_iff profile land_data crops_data ma a (hmemE a ha))
      rw [h1, hact, filter_priority_sort_actions]
      exact emit_actions_filter_critical profile land_data crops_data ma
    refine ⟨?_, ?_, ?_, ?_⟩
    · rw [hfilter, List.length_map]
      by_cases hc : land_data.landClaimed
      · simp only [find_harvestable_crops, hc, if_true]
        rw [harvest_in_grid_length]
        rfl
      · simp [find_harvestable_crops, hc]
    · intro a ha htype
      have haE := hmemE a ha
      refine ⟨(emit_actions_harvest_iff profile land_data crops_data ma a haE).mp htype, ?_⟩
      unfold emit_actions at haE
      rcases List.mem_append.mp haE with h12 | hp
      · rcases List.mem_append.mp h12 with hh | he
        · obtain ⟨e, hefind, rfl⟩ := List.mem_map.mp hh
          by_cases hc : land_data.landClaimed
          · rw [find_harvestable_crops, if_pos hc] at hefind
            obtain ⟨-, row, cell, hrow, hcell, hc2, hpay⟩ :=
              harvest_in_grid_mem crops_data 0 land_data.landData e hefind
            refine ⟨e.1, e.2.1, cell, rfl, rfl, ?_, hc2,
              by simp [mk_harvest_action, hpay]⟩
            rw [cell_at]
            simp only [Nat.sub_zero] at hrow
            rw [hrow]
            exact hcell
          · rw [find_harvestable_crops, if_neg hc] at hefind
            simp at hefind
        · exact absurd htype (expansion_step_mem _ _ _ a he).2
      · exact absurd htype (plant_step_mem _ _ _ _ _ _ a hp).2
    · rw [hfilter, List.map_map]
      by_cases hc : land_data.landClaimed
      · rw [find_harvestable_crops, if_pos hc]
        refine List.Pairwise.map _ ?_
          (harvest_in_grid_pairwise crops_data 0 land_data.landData)
        intro a b hlex heq2
        simp only [Function.comp_apply, mk_harvest_action, Prod.mk.injEq,
          Option.some.injEq] at heq2
        rcases hlex with hlt | ⟨heq1, hlt⟩ <;> omega
      · rw [find_harvestable_crops, if_neg hc]
        simp
    · intro hfalse
      rw [hfilter, find_harvestable_crops, hfalse]
      simp

theorem emit_actions_witness_eval :
    emit_actions { score := 0 } landW respW (some (analysis_of respW [cWheat])) =
      [actW1, actW2] := by
  simp only [emit_actions, find_harvestable_crops, landW, if_true, harvest_in_grid,
    harvest_in_row, harvest_payload, crop_lookup, respW, cWheat, find_empty_plots,
    empty_plots_in_grid, empty_plots_in_row, expansion_decision, should_expand_land,
    expansion_step, plant_step, recommend_crop, min_reserve, MIN_WATER_RESERVE]
  norm_num [mk_harvest_action, actW1, actW2, cWheat]

/-- Witness for C2 at a concrete input: claimed 2x2 grid with one resolved
and one unresolved mature cell. -/
theorem plan_harvest_actions_exact_witness :
    get_farming_plan [] { score := 0 } landW respW =
      some (planW, [analysis_of respW [cWheat]]) ∧
    ((planW.actions.filter (fun a => decide (a.type = ActionType.harvest))).length =
      if landW.landClaimed then harvest_cell_count landW else 0) ∧
    (∀ a ∈ planW.actions, a.type = ActionType.harvest →
      a.priority = Priority.CRITICAL ∧
      ∃ r c cell, a.row = some r ∧ a.col = some c ∧
        cell_at landW r c = some cell ∧ 2 ≤ cell ∧
        a.crop = some (harvest_payload respW cell)) ∧
    ((planW.actions.filter (fun a => decide (a.type = ActionType.harvest))).map
      (fun a => (a.row, a.col))).Nodup ∧
    (landW.landClaimed = false →
      planW.actions.filter (fun a => decide (a.type = ActionType.harvest)) = []) := by
  have hpw : List.Pairwise (fun a b => action_le a b = true) [actW1, actW2] := by
    refine List.Pairwise.cons ?_ (List.pairwise_singleton _ _)
    intro b hb
    rcases List.mem_singleton.mp hb with rfl
    rfl
  have heq : get_farming_plan [] { score := 0 } landW respW =
      some (planW, [analysis_of respW [cWheat]]) := by
    rw [get_farming_plan, analyze_market_nonempty [] respW [cWheat] rfl (by simp)]
    rw [if_neg (by norm_num)]
    simp only [Option.some.injEq, Prod.mk.injEq, Plan.mk.injEq, planW,
      List.nil_append]
    refine ⟨⟨trivial, ?_, trivial⟩, trivial⟩
    rw [emit_actions_witness_eval, sort_actions, List.mergeSort_of_sorted hpw]
  have h := plan_harvest_actions_exact [] { score := 0 } landW respW planW
    [analysis_of respW [cWheat]] heq
  exact ⟨heq, h.1, h.2.1, h.2.2.1, h.2.2.2⟩

end HappyHarvest
